import Mathlib

/-!
Verification of the reducer crate, a reactive state container.

The development shallowly embeds the crate in Lean:

* A reducer (state machine) is a pure function `S → A → S`, mirroring
  `Reducer::reduce(&mut self, action)`.
* A reactor (observer) mutates its own state and may have arbitrary side
  effects; it is embedded as a function `W → S → W × Except E Unit`, where
  `W` is the reactor state threaded explicitly and the `Except` value is
  the `Result<(), E>` returned by `Reactor::react(&mut self, state)`.
* `Store` pairs a state with a reactor state, as in the source.
* The asynchronous actor machinery is embedded by making the mailbox
  content explicit: the actor loop created by `Store::into_task` and
  `spawn_dispatcher` forwards the stream of enqueued actions into the
  store one at a time, stopping at the first reactor error.
* Copy-on-write state (`Arc`/`Rc` with `make_mut`) is embedded with an
  explicit heap of reference-counted allocations.
-/

deriving instance DecidableEq for Except

namespace Reducer

/-- The `Store` struct of src/dispatcher/store.rs: a state of type `S`
paired with a reactor whose mutable state has type `W`. -/
structure Store (S : Type) (W : Type) where
  state : S
  reactor : W
  deriving Repr, DecidableEq

/-- Embedding of `Dispatcher::dispatch` for `Store`
(src/dispatcher/store.rs, `self.state.reduce(action); self.reactor.react(&self.state)`):
first the state is updated via `reduce`, then the reactor is notified with a
reference to the new state, and its result is returned unchanged. -/
def Store.dispatch {S W A E : Type} (red : S → A → S)
    (react : W → S → W × Except E Unit)
    (st : Store S W) (a : A) : Store S W × Except E Unit :=
  let s := red st.state a
  let p := react st.reactor s
  (⟨s, p.1⟩, p.2)

/-- A mock reactor in the style of src/mock.rs `TaggedMock`: its state is the
list of states it has been notified with, in order, and its result on a given
state is prescribed by the behaviour function `b`. -/
def mockReactor {S E : Type} (b : S → Except E Unit) (w : List S) (s : S) :
    List S × Except E Unit :=
  (w ++ [s], b s)

/-- The sequence of intermediate states produced by folding `reduce`
left-to-right over an initial state: element `i` is the state after
dispatching the first `i + 1` actions. -/
def scanStates {S A : Type} (red : S → A → S) (s : S) : List A → List S
  | [] => []
  | a :: as => red s a :: scanStates red (red s a) as

/-- Dispatching a sequence of actions on a `Store`, one at a time, keeping
the store returned by each `dispatch` (a single producer issuing
`store.dispatch(a1); store.dispatch(a2); ...`). -/
def dispatchSeq {S W A E : Type} (red : S → A → S)
    (react : W → S → W × Except E Unit) :
    Store S W → List A → Store S W
  | st, [] => st
  | st, a :: as => dispatchSeq red react (Store.dispatch red react st a).1 as

/-- Embedding of the actor loop created by `Store::into_task`
(src/dispatcher/store.rs) and `spawn_dispatcher` (src/dispatcher/spawn.rs):
`rx.map(Ok).forward(store)` repeatedly takes the next action from the
mailbox and dispatches it on the store; on the first reactor error the
future completes with that error and the remaining actions are never
dispatched; when the mailbox is exhausted it completes with `Ok(())`.
The argument list is the FIFO content of the mailbox: the actions that
were successfully enqueued, in order. -/
def into_task_run {S W A E : Type} (red : S → A → S)
    (react : W → S → W × Except E Unit) :
    Store S W → List A → Store S W × Except E Unit
  | st, [] => (st, Except.ok ())
  | st, a :: as =>
    match Store.dispatch red react st a with
    | (st', Except.ok _) => into_task_run red react st' as
    | (st', Except.error e) => (st', Except.error e)

section Lemmas

variable {S W A E : Type}

theorem scanStates_length (red : S → A → S) (s : S) (as : List A) :
    (scanStates red s as).length = as.length := by
  induction as generalizing s with
  | nil => rfl
  | cons a as ih => simp [scanStates, ih]

theorem scanStates_get (red : S → A → S) (s : S) (as : List A)
    (i : Nat) (h : i < as.length) :
    (scanStates red s as).get ⟨i, by rw [scanStates_length]; exact h⟩
      = List.foldl red s (as.take (i + 1)) := by
  induction as generalizing s i with
  | nil => exact absurd h (by simp)
  | cons a as ih =>
    cases i with
    | zero => simp [scanStates]
    | succ i => simpa [scanStates] using ih (red s a) i (by simpa using h)

theorem dispatchSeq_mock_ok (red : S → A → S) (s : S) (w : List S)
    (as : List A) :
    dispatchSeq red (mockReactor (E := E) (fun _ => Except.ok ()))
        ⟨s, w⟩ as
      = ⟨List.foldl red s as, w ++ scanStates red s as⟩ := by
  induction as generalizing s w with
  | nil => simp [dispatchSeq, scanStates]
  | cons a as ih =>
    simp [dispatchSeq, Store.dispatch, mockReactor, scanStates, ih]

theorem into_task_run_ok (red : S → A → S) (b : S → Except E Unit)
    (s : S) (w : List S) (as : List A)
    (hok : ∀ x ∈ scanStates red s as, b x = Except.ok ()) :
    into_task_run red (mockReactor b) ⟨s, w⟩ as
      = (⟨List.foldl red s as, w ++ scanStates red s as⟩, Except.ok ()) := by
  induction as generalizing s w with
  | nil => simp [into_task_run, scanStates]
  | cons a as ih =>
    have h1 : b (red s a) = Except.ok () := hok _ (by simp [scanStates])
    have h2 : ∀ x ∈ scanStates red (red s a) as, b x = Except.ok () := by
      intro x hx
      exact hok x (by simp [scanStates, hx])
    simp [into_task_run, Store.dispatch, mockReactor, h1, scanStates,
      ih _ _ h2]

theorem into_task_run_error (red : S → A → S) (b : S → Except E Unit)
    (s : S) (w : List S) (as1 : List A) (a : A) (as2 : List A) (e : E)
    (hok : ∀ x ∈ scanStates red s as1, b x = Except.ok ())
    (herr : b (List.foldl red s (as1 ++ [a])) = Except.error e) :
    into_task_run red (mockReactor b) ⟨s, w⟩ (as1 ++ a :: as2)
      = (⟨List.foldl red s (as1 ++ [a]), w ++ scanStates red s (as1 ++ [a])⟩,
         Except.error e) := by
  induction as1 generalizing s w with
  | nil =>
    have herr1 : b (red s a) = Except.error e := by simpa using herr
    simp [into_task_run, Store.dispatch, mockReactor, scanStates, herr1]
  | cons a1 as1 ih =>
    have h1 : b (red s a1) = Except.ok () := hok _ (by simp [scanStates])
    have h2 : ∀ x ∈ scanStates red (red s a1) as1, b x = Except.ok () := by
      intro x hx
      exact hok x (by simp [scanStates, hx])
    have h3 : b (List.foldl red (red s a1) (as1 ++ [a])) = Except.error e := by
      simpa using herr
    simp [into_task_run, Store.dispatch, mockReactor, h1, scanStates,
      ih _ _ h2 h3]

end Lemmas

/-- The calculator example from the crate documentation and the spec:
state `i32`, actions add, subtract, multiply, divide. -/
inductive CalcAction where
  | add (x : Int)
  | sub (x : Int)
  | mul (x : Int)
  | div (x : Int)
  deriving Repr, DecidableEq

/-- The calculator reducer from the crate documentation: each action maps to
the corresponding integer operation (Lean integer division truncates toward
zero, as does the source language). -/
def calcReduce (s : Int) : CalcAction → Int
  | CalcAction.add x => s + x
  | CalcAction.sub x => s - x
  | CalcAction.mul x => s * x
  | CalcAction.div x => s / x

/-- C3: dispatching a finite sequence of actions in order on a store with a
state-recording reactor makes the reactor observe exactly the left-to-right
fold of `reduce` over the initial state: the recorded sequence is
`scanStates`, whose element `i` is `reduce` applied cumulatively to `s` and
the first `i + 1` actions; in particular for a single action, the reactor is
presented exactly `reduce(s, a)`. -/
theorem store_dispatch_fold_ordering :
    (∀ (S A E : Type) (red : S → A → S) (s : S) (as : List A),
      (dispatchSeq red (mockReactor (E := E) (fun _ => Except.ok ()))
          ⟨s, []⟩ as).reactor
        = scanStates red s as)
    ∧ (∀ (S A : Type) (red : S → A → S) (s : S) (as : List A) (i : Nat)
        (h : i < as.length),
      (scanStates red s as).get ⟨i, by rw [scanStates_length]; exact h⟩
        = List.foldl red s (as.take (i + 1)))
    ∧ (∀ (S A E : Type) (red : S → A → S) (s : S) (a : A),
      (Store.dispatch red (mockReactor (E := E) (fun _ => Except.ok ()))
          ⟨s, []⟩ a).1.reactor
        = [red s a]) := by
  refine ⟨?_, ?_, ?_⟩
  · intro S A E red s as
    simp [dispatchSeq_mock_ok]
  · intro S A red s as i h
    exact scanStates_get red s as i h
  · intro S A E red s a
    rfl

/-- Witness for C3: the documented calculator scenario, initial state `0`,
actions `[+5, *3, -1, /7]`, recorded observer sequence `[5, 15, 14, 2]`. -/
theorem store_dispatch_fold_ordering_witness :
    (dispatchSeq calcReduce (mockReactor (E := Nat) (fun _ => Except.ok ()))
        ⟨0, []⟩
        [CalcAction.add 5, CalcAction.mul 3, CalcAction.sub 1,
          CalcAction.div 7]).reactor
      = [5, 15, 14, 2]
    ∧ (scanStates calcReduce 0
        [CalcAction.add 5, CalcAction.mul 3, CalcAction.sub 1,
          CalcAction.div 7]).get ⟨1, by decide⟩
      = List.foldl calcReduce 0
          ([CalcAction.add 5, CalcAction.mul 3, CalcAction.sub 1,
            CalcAction.div 7].take 2) := by
  constructor
  · rw [store_dispatch_fold_ordering.1]
    decide
  · exact store_dispatch_fold_ordering.2.1 Int CalcAction calcReduce 0
      [CalcAction.add 5, CalcAction.mul 3, CalcAction.sub 1, CalcAction.div 7]
      1 (by decide)

/-- C1: `Store::dispatch(action)` first applies the reducer to the state and
then calls the reactor with a reference to the post-transition state,
returning the reactor result unchanged; the state update to
`reduce(state, action)` is unconditional and precedes the notification, so
it happens even when the reactor errors (illustrated by the mock-reactor
instance, whose result is whatever the behaviour prescribes while the state
and the call log are updated regardless). -/
theorem store_dispatch_reduce_then_react :
    (∀ (S W A E : Type) (red : S → A → S)
        (react : W → S → W × Except E Unit) (st : Store S W) (a : A),
      (Store.dispatch red react st a).1.state = red st.state a
        ∧ (Store.dispatch red react st a).2
            = (react st.reactor (red st.state a)).2
        ∧ (Store.dispatch red react st a).1.reactor
            = (react st.reactor (red st.state a)).1)
    ∧ (∀ (S A E : Type) (red : S → A → S) (b : S → Except E Unit)
        (s : S) (w : List S) (a : A),
      Store.dispatch red (mockReactor b) ⟨s, w⟩ a
        = (⟨red s a, w ++ [red s a]⟩, b (red s a))) := by
  constructor
  · intro S W A E red react st a
    exact ⟨rfl, rfl, rfl⟩
  · intro S A E red b s w a
    rfl

/-- C5: when every enqueued action dispatches without a reactor error (the
behaviour returns ok on every state the fold passes through), the actor task
dispatches every action that was successfully enqueued into the mailbox, in
FIFO order — the reactor log extends by the full left-to-right scan of
`reduce` and the final state is the full fold — and only then completes with
ok. -/
theorem into_task_graceful_drains_fifo :
    ∀ (S A E : Type) (red : S → A → S) (b : S → Except E Unit)
      (s : S) (w : List S) (as : List A),
      (∀ x ∈ scanStates red s as, b x = Except.ok ()) →
      into_task_run red (mockReactor b) ⟨s, w⟩ as
        = (⟨List.foldl red s as, w ++ scanStates red s as⟩, Except.ok ()) :=
  fun _ _ _ red b s w as hok => into_task_run_ok red b s w as hok

/-- Witness for C5: the calculator scenario with a reactor that would fail
on negative states; all four actions are processed in order and the task
completes with ok. -/
theorem into_task_graceful_drains_fifo_witness :
    into_task_run calcReduce
        (mockReactor (fun x => if x < 0 then Except.error 9 else Except.ok ()))
        ⟨0, []⟩
        [CalcAction.add 5, CalcAction.mul 3, CalcAction.sub 1,
          CalcAction.div 7]
      = (⟨2, [5, 15, 14, 2]⟩, Except.ok ()) := by
  have h := into_task_graceful_drains_fifo Int CalcAction Nat calcReduce
    (fun x => if x < 0 then Except.error 9 else Except.ok ()) 0 []
    [CalcAction.add 5, CalcAction.mul 3, CalcAction.sub 1, CalcAction.div 7]
    (by decide)
  rw [h]
  decide

/-- C4: when the reactor errors on the action at position `|as1|` of the
mailbox content `as1 ++ a :: as2`, the actor task stops immediately: the
task completes with exactly that error as its final result, the failing
action itself was applied (reduce precedes react), and the actions `as2`
already buffered but not yet dispatched are never applied — the final state
and the reactor log only reflect `as1 ++ [a]` and are independent of
`as2`. -/
theorem into_task_error_stops_processing :
    ∀ (S A E : Type) (red : S → A → S) (b : S → Except E Unit)
      (s : S) (w : List S) (as1 : List A) (a : A) (as2 : List A) (e : E),
      (∀ x ∈ scanStates red s as1, b x = Except.ok ()) →
      b (List.foldl red s (as1 ++ [a])) = Except.error e →
      into_task_run red (mockReactor b) ⟨s, w⟩ (as1 ++ a :: as2)
        = (⟨List.foldl red s (as1 ++ [a]),
            w ++ scanStates red s (as1 ++ [a])⟩,
           Except.error e) :=
  fun _ _ _ red b s w as1 a as2 e hok herr =>
    into_task_run_error red b s w as1 a as2 e hok herr

/-- Witness for C4: with mailbox content `[1, 2, 5, 7]` over addition on
integers and a reactor failing exactly on state `3`, the task applies `1`
then `2`, stops with the error, and never applies the buffered `5` and
`7`. -/
theorem into_task_error_stops_processing_witness :
    into_task_run (fun s a => s + a)
        (mockReactor (fun x : Int => if x = 3 then Except.error 9
          else Except.ok ()))
        ⟨0, []⟩ ([1] ++ (2 : Int) :: [5, 7])
      = (⟨3, [1, 3]⟩, Except.error 9) := by
  have h := into_task_error_stops_processing Int Int Nat (fun s a => s + a)
    (fun x : Int => if x = 3 then Except.error 9 else Except.ok ())
    0 [] [1] 2 [5, 7] 9 (by decide) (by decide)
  rw [h]
  decide

/-- Embedding of `impl<S, T> Reactor<S> for [T]` (src/reactor/slice.rs):
the loop `for reducer in self { reducer.react(state)?; }` followed by
`Ok(())`. Elements of type `T` are notified in order; a call may update the
element in place and have side effects on a shared world `W` (as the channel
based reactors of the crate do); the question-mark operator returns the
first error immediately, so the remaining elements are not notified. -/
def sliceReact {S W E T : Type} (react : T → W → S → T × W × Except E Unit) :
    List T → W → S → List T × W × Except E Unit
  | [], w, _ => ([], w, Except.ok ())
  | t :: ts, w, s =>
    match react t w s with
    | (t1, w1, Except.error e) => (t1 :: ts, w1, Except.error e)
    | (t1, w1, Except.ok _) =>
      match sliceReact react ts w1 s with
      | (ts1, w2, out) => (t1 :: ts1, w2, out)

/-- Embedding of the tuple instance generated by `impl_reactor_for_tuple!`
(src/reactor/tuple.rs) at arity three: destructure the tuple, notify each
component in order with the question-mark operator, then return ok. -/
def tupleReact3 {S W E TA TB TC : Type}
    (reactA : TA → W → S → TA × W × Except E Unit)
    (reactB : TB → W → S → TB × W × Except E Unit)
    (reactC : TC → W → S → TC × W × Except E Unit)
    (t : TA × TB × TC) (w : W) (s : S) :
    (TA × TB × TC) × W × Except E Unit :=
  match reactA t.1 w s with
  | (a1, w1, Except.error e) => ((a1, t.2.1, t.2.2), w1, Except.error e)
  | (a1, w1, Except.ok _) =>
    match reactB t.2.1 w1 s with
    | (b1, w2, Except.error e) => ((a1, b1, t.2.2), w2, Except.error e)
    | (b1, w2, Except.ok _) =>
      match reactC t.2.2 w2 s with
      | (c1, w3, out) => ((a1, b1, c1), w3, out)

/-- A mock fan-out element in the style of src/reactor/mock.rs: its identity
is a number, left unchanged by react; each call appends the pair of its
identity and the observed state to a shared log, and its result on a given
state is prescribed by the behaviour function `b`. -/
def mockReact {S E : Type} (b : Nat → S → Except E Unit) (i : Nat)
    (w : List (Nat × S)) (s : S) : Nat × List (Nat × S) × Except E Unit :=
  (i, w ++ [(i, s)], b i s)

section FanOut

variable {S E : Type}

theorem sliceReact_mock_ok (b : Nat → S → Except E Unit) (ts : List Nat)
    (w : List (Nat × S)) (s : S)
    (hok : ∀ i ∈ ts, b i s = Except.ok ()) :
    sliceReact (mockReact b) ts w s
      = (ts, w ++ ts.map (fun i => (i, s)), Except.ok ()) := by
  induction ts generalizing w with
  | nil => simp [sliceReact]
  | cons t ts ih =>
    have h1 : b t s = Except.ok () := hok t (by simp)
    have h2 : ∀ i ∈ ts, b i s = Except.ok () := fun i hi => hok i (by simp [hi])
    simp [sliceReact, mockReact, h1, ih _ h2]

theorem sliceReact_mock_error (b : Nat → S → Except E Unit) (ts1 : List Nat)
    (k : Nat) (ts2 : List Nat) (w : List (Nat × S)) (s : S) (e : E)
    (hok : ∀ i ∈ ts1, b i s = Except.ok ())
    (herr : b k s = Except.error e) :
    sliceReact (mockReact b) (ts1 ++ k :: ts2) w s
      = (ts1 ++ k :: ts2, w ++ (ts1 ++ [k]).map (fun i => (i, s)),
         Except.error e) := by
  induction ts1 generalizing w with
  | nil => simp [sliceReact, mockReact, herr]
  | cons t ts1 ih =>
    have h1 : b t s = Except.ok () := hok t (by simp)
    have h2 : ∀ i ∈ ts1, b i s = Except.ok () := fun i hi => hok i (by simp [hi])
    simp [sliceReact, mockReact, h1, ih _ h2]

end FanOut

/-- C2: for a composite reactor that is a slice of reactors (proved for
every length and every failing position, via the decomposition
`ts1 ++ k :: ts2` where `k` is the first failing element) one react call
notifies the elements of `ts1` and then `k` exactly once each, in
registration order (the shared log extends by exactly those events in that
order), leaves the elements of `ts2` unnotified, and returns the error of
`k`; if no element fails, every element is notified once in order and the
call returns ok. The same holds for the tuple instance, shown at arity
three for each failing position and for the all-ok case. -/
theorem composite_react_short_circuit :
    (∀ (S E : Type) (b : Nat → S → Except E Unit) (ts1 : List Nat) (k : Nat)
        (ts2 : List Nat) (w : List (Nat × S)) (s : S) (e : E),
      (∀ i ∈ ts1, b i s = Except.ok ()) → b k s = Except.error e →
      sliceReact (mockReact b) (ts1 ++ k :: ts2) w s
        = (ts1 ++ k :: ts2, w ++ (ts1 ++ [k]).map (fun i => (i, s)),
           Except.error e))
    ∧ (∀ (S E : Type) (b : Nat → S → Except E Unit) (ts : List Nat)
        (w : List (Nat × S)) (s : S),
      (∀ i ∈ ts, b i s = Except.ok ()) →
      sliceReact (mockReact b) ts w s
        = (ts, w ++ ts.map (fun i => (i, s)), Except.ok ()))
    ∧ (∀ (S E : Type) (b : Nat → S → Except E Unit) (i j l : Nat)
        (w : List (Nat × S)) (s : S) (e : E),
      (b i s = Except.error e →
        tupleReact3 (mockReact b) (mockReact b) (mockReact b) (i, j, l) w s
          = ((i, j, l), w ++ [(i, s)], Except.error e))
      ∧ (b i s = Except.ok () → b j s = Except.error e →
        tupleReact3 (mockReact b) (mockReact b) (mockReact b) (i, j, l) w s
          = ((i, j, l), w ++ [(i, s), (j, s)], Except.error e))
      ∧ (b i s = Except.ok () → b j s = Except.ok () →
          b l s = Except.error e →
        tupleReact3 (mockReact b) (mockReact b) (mockReact b) (i, j, l) w s
          = ((i, j, l), w ++ [(i, s), (j, s), (l, s)], Except.error e))
      ∧ (b i s = Except.ok () → b j s = Except.ok () →
          b l s = Except.ok () →
        tupleReact3 (mockReact b) (mockReact b) (mockReact b) (i, j, l) w s
          = ((i, j, l), w ++ [(i, s), (j, s), (l, s)], Except.ok ()))) := by
  refine ⟨?_, ?_, ?_⟩
  · intro S E b ts1 k ts2 w s e hok herr
    exact sliceReact_mock_error b ts1 k ts2 w s e hok herr
  · intro S E b ts w s hok
    exact sliceReact_mock_ok b ts w s hok
  · intro S E b i j l w s e
    refine ⟨fun h1 => ?_, fun h1 h2 => ?_, fun h1 h2 h3 => ?_,
      fun h1 h2 h3 => ?_⟩
    · simp [tupleReact3, mockReact, h1]
    · simp [tupleReact3, mockReact, h1, h2]
    · simp [tupleReact3, mockReact, h1, h2, h3]
    · simp [tupleReact3, mockReact, h1, h2, h3]

/-- Witness for C2: four reactors `0, 1, 2, 3` over state `0`, where
reactor `1` is the first to fail: the slice notifies `0` then `1` and stops
with the error; the triple `(0, 1, 2)` behaves identically. -/
theorem composite_react_short_circuit_witness :
    sliceReact (mockReact (fun i _ => if i = 1 then Except.error 7
        else Except.ok ()))
        ([0] ++ 1 :: [2, 3]) [] (0 : Nat)
      = ([0] ++ 1 :: [2, 3], [] ++ ([0] ++ [1]).map (fun i => (i, 0)),
         Except.error 7)
    ∧ tupleReact3
        (mockReact (fun i _ => if i = 1 then Except.error 7
          else Except.ok ()))
        (mockReact (fun i _ => if i = 1 then Except.error 7
          else Except.ok ()))
        (mockReact (fun i _ => if i = 1 then Except.error 7
          else Except.ok ()))
        (0, 1, 2) [] (0 : Nat)
      = ((0, 1, 2), [] ++ [(0, 0), (1, 0)], Except.error 7) := by
  constructor
  · exact composite_react_short_circuit.1 Nat Nat
      (fun i _ => if i = 1 then Except.error 7 else Except.ok ())
      [0] 1 [2, 3] [] 0 7 (by decide) (by decide)
  · exact (composite_react_short_circuit.2.2 Nat Nat
      (fun i _ => if i = 1 then Except.error 7 else Except.ok ())
      0 1 2 [] 0 7).2.1 (by decide) (by decide)

/-- Mapping a slice of fan-out elements and a shared world into a reactor
for `Store`: the store reactor state is the pair of the boxed slice and the
world, and reacting runs the slice fan-out (src/reactor/slice.rs used as the
reactor of a store, as in `Store::new(state, actors.into_boxed_slice())`). -/
def sliceAsReact {S W E T : Type}
    (react : T → W → S → T × W × Except E Unit)
    (p : List T × W) (s : S) : (List T × W) × Except E Unit :=
  match sliceReact react p.1 p.2 s with
  | (ts, w, out) => ((ts, w), out)

/-- C10: reacting on an empty slice of reactors returns ok without invoking
any reactor (the world is unchanged and no element exists to be notified),
and a store whose reactor is an empty slice always dispatches successfully,
still updating its state. -/
theorem empty_slice_react_ok :
    (∀ (S W E T : Type) (react : T → W → S → T × W × Except E Unit)
        (w : W) (s : S),
      sliceReact react ([] : List T) w s = ([], w, Except.ok ()))
    ∧ (∀ (S W A E T : Type) (red : S → A → S)
        (react : T → W → S → T × W × Except E Unit)
        (s : S) (w : W) (a : A),
      Store.dispatch red (sliceAsReact react) ⟨s, ([], w)⟩ a
        = (⟨red s a, ([], w)⟩, Except.ok ())) := by
  constructor
  · intro S W E T react w s
    rfl
  · intro S W A E T red react s w a
    rfl

/-- The error produced by the futures mpsc sender when the receiving end of
the channel has been dropped. -/
inductive SendError where
  | disconnected
  deriving Repr, DecidableEq

/-- The `AsyncDispatcherError` enum of src/dispatcher/store.rs and
src/dispatcher/spawn.rs: its only variant signals that the spawned task has
terminated and cannot receive further actions. -/
inductive AsyncDispatcherError where
  | Terminated
  deriving Repr, DecidableEq

/-- A multi-producer single-consumer channel, reduced to what the dispatch
handles can observe: the FIFO buffer of successfully enqueued actions, and
whether the receiving end — owned by the actor task and dropped when the
task finishes — is still alive. Every clone of a dispatch handle is a sender
on the same channel value. -/
structure Channel (A : Type) where
  buffer : List A
  receiverAlive : Bool
  deriving Repr, DecidableEq

/-- Sending an action on the channel, as observed by a producer that drives
the send to completion (`block_on(self.send(action))`, or `unbounded_send`):
while the receiver is alive the action is enqueued and the send succeeds;
once the receiver has been dropped the send fails with the disconnected
error. -/
def Channel.send {A : Type} (ch : Channel A) (a : A) :
    Channel A × Except SendError Unit :=
  if ch.receiverAlive then
    ({ ch with buffer := ch.buffer ++ [a] }, Except.ok ())
  else
    (ch, Except.error SendError.disconnected)

/-- Sending through `tx.sink_map_err(f)`: the send error, if any, is mapped
through `f` (src/dispatcher/store.rs and src/dispatcher/spawn.rs use
`f = |_| AsyncDispatcherError::Terminated`). -/
def sinkMapErrSend {A E : Type} (f : SendError → E) (ch : Channel A)
    (a : A) : Channel A × Except E Unit :=
  match Channel.send ch a with
  | (ch1, Except.ok _) => (ch1, Except.ok ())
  | (ch1, Except.error err) => (ch1, Except.error (f err))

/-- Embedding of `AsyncDispatcher::dispatch` (src/dispatcher/sink.rs) for
the handle produced by `Store::into_task` and `spawn_dispatcher`:
`block_on(self.send(action))` on the mapped sink
`tx.sink_map_err(|_| AsyncDispatcherError::Terminated)`. -/
def AsyncDispatcher.dispatch {A : Type} (ch : Channel A) (a : A) :
    Channel A × Except AsyncDispatcherError Unit :=
  sinkMapErrSend (fun _ => AsyncDispatcherError.Terminated) ch a

/-- C6: once the actor task has terminated — gracefully or because of a
reactor error — the receiving end of its mailbox has been dropped, and every
subsequent dispatch through any dispatch handle on that mailbox (every clone
is a sender on the same channel) fails with the Terminated error, leaving
the channel unchanged; no post-termination dispatch returns success. -/
theorem dispatch_after_termination_terminated :
    ∀ (A : Type) (ch : Channel A) (a : A),
      ch.receiverAlive = false →
      AsyncDispatcher.dispatch ch a
          = (ch, Except.error AsyncDispatcherError.Terminated)
        ∧ (AsyncDispatcher.dispatch ch a).2 ≠ Except.ok () := by
  intro A ch a h
  constructor
  · simp [AsyncDispatcher.dispatch, sinkMapErrSend, Channel.send, h]
  · simp [AsyncDispatcher.dispatch, sinkMapErrSend, Channel.send, h]

/-- Witness for C6: a dispatch of the action `5` on a channel whose
receiver is gone fails with Terminated. -/
theorem dispatch_after_termination_terminated_witness :
    AsyncDispatcher.dispatch (⟨[1, 2], false⟩ : Channel Nat) 5
        = (⟨[1, 2], false⟩, Except.error AsyncDispatcherError.Terminated)
      ∧ (AsyncDispatcher.dispatch (⟨[1, 2], false⟩ : Channel Nat) 5).2
        ≠ Except.ok () :=
  dispatch_after_termination_terminated Nat ⟨[1, 2], false⟩ 5 rfl

/-- Embedding of `AsyncStoreHandle::dispatch`
(src/dispatcher/async_store.rs): `self.tx.unbounded_send((action, tx)).unwrap()`.
The unbounded send fails precisely when the receiving end has been dropped,
and `unwrap` turns that failure into a panic, modelled as `none`; on success
the updated channel (and a promise for the dispatch result, irrelevant here)
is returned. -/
def AsyncStoreHandle.dispatch {A : Type} (ch : Channel A) (a : A) :
    Option (Channel A) :=
  match Channel.send ch a with
  | (ch1, Except.ok _) => some ch1
  | (_, Except.error _) => none

/-- What a caller observes from one dispatch call: success, a domain
observer error, the Terminated error, or an unrecoverable panic. -/
inductive DispatchOutcome (E : Type) where
  | ok
  | observerError (e : E)
  | terminated
  | panicked
  deriving Repr, DecidableEq

/-- The outcome a caller of `AsyncStoreHandle::dispatch` observes. -/
def asyncStoreHandleOutcome {A : Type} (E : Type) (ch : Channel A) (a : A) :
    DispatchOutcome E :=
  match AsyncStoreHandle.dispatch ch a with
  | some _ => DispatchOutcome.ok
  | none => DispatchOutcome.panicked

/-- Counterexample to C8: dispatching the action `0` through an
`AsyncStoreHandle` whose actor task has terminated (the mailbox receiver is
gone) hits `unbounded_send(..).unwrap()` and panics — an outcome that is
none of ok, a domain observer error, or Terminated. -/
theorem async_store_handle_dispatch_panics :
    asyncStoreHandleOutcome Nat (⟨[], false⟩ : Channel Nat) 0
        = DispatchOutcome.panicked
      ∧ (DispatchOutcome.panicked : DispatchOutcome Nat)
        ≠ DispatchOutcome.ok
      ∧ (DispatchOutcome.panicked : DispatchOutcome Nat)
        ≠ DispatchOutcome.terminated
      ∧ (DispatchOutcome.panicked : DispatchOutcome Nat)
        ≠ DispatchOutcome.observerError 0 := by
  refine ⟨rfl, by decide, by decide, by decide⟩

/-- C8 (amended): for the synchronous `Store::dispatch` and for the
sink-based dispatch handles (`AsyncDispatcher` from `Store::into_task` and
`spawn_dispatcher`), the observable outcome of dispatching an action is
always success, a domain observer error, or the Terminated error — those
interfaces have no panic path; `AsyncStoreHandle::dispatch` panics only
when the mailbox receiver is gone, and behaves like a successful dispatch
while the actor task is alive. -/
theorem dispatch_outcomes_no_panic :
    (∀ (A : Type) (ch : Channel A) (a : A),
      (AsyncDispatcher.dispatch ch a).2 = Except.ok ()
        ∨ (AsyncDispatcher.dispatch ch a).2
            = Except.error AsyncDispatcherError.Terminated)
    ∧ (∀ (S W A E : Type) (red : S → A → S)
        (react : W → S → W × Except E Unit) (st : Store S W) (a : A),
      (Store.dispatch red react st a).2 = Except.ok ()
        ∨ ∃ e : E, (Store.dispatch red react st a).2 = Except.error e)
    ∧ (∀ (A E : Type) (ch : Channel A) (a : A),
      ch.receiverAlive = true →
      asyncStoreHandleOutcome E ch a = DispatchOutcome.ok) := by
  refine ⟨?_, ?_, ?_⟩
  · intro A ch a
    cases h : ch.receiverAlive with
    | true =>
      left
      simp [AsyncDispatcher.dispatch, sinkMapErrSend, Channel.send, h]
    | false =>
      right
      simp [AsyncDispatcher.dispatch, sinkMapErrSend, Channel.send, h]
  · intro S W A E red react st a
    rcases h : (Store.dispatch red react st a).2 with e | u
    · exact Or.inr ⟨e, rfl⟩
    · exact Or.inl rfl
  · intro A E ch a h
    simp [asyncStoreHandleOutcome, AsyncStoreHandle.dispatch, Channel.send, h]

/-- Witness for C8 (amended): a dispatch through a live `AsyncStoreHandle`
succeeds. -/
theorem dispatch_outcomes_no_panic_witness :
    asyncStoreHandleOutcome Nat (⟨[], true⟩ : Channel Nat) 3
      = DispatchOutcome.ok :=
  dispatch_outcomes_no_panic.2.2 Nat Nat ⟨[], true⟩ 3 rfl

/-- A heap of reference-counted allocations: entry `r` holds the stored
value together with its live strong reference count. A shared pointer
(`Arc`/`Rc`) is the index of its allocation; cloning the pointer yields a
new reference to the same index. -/
structure World (T : Type) where
  heap : List (T × Nat)
  deriving Repr, DecidableEq

/-- The allocation a reference points to: its value and strong count. -/
def World.get {T : Type} (w : World T) (r : Nat) : Option (T × Nat) :=
  w.heap[r]?

/-- Cloning a shared pointer: the strong count of its allocation is
incremented and the clone refers to the same allocation. -/
def Arc.clone {T : Type} (w : World T) (r : Nat) : World T :=
  match w.heap[r]? with
  | some (v, n) => ⟨w.heap.set r (v, n + 1)⟩
  | none => w

/-- Embedding of `impl<A, T> Reducer<A> for Arc<T>` (src/reducer/arc.rs)
and the identical `Rc<T>` instance (src/reducer/rc.rs):
`Arc::make_mut(self).reduce(action)`. When this reference is the sole
strong owner the value is mutated in place; otherwise the value is cloned
with the `Clone` implementation `cl`, the clone is mutated, the reference is
redirected to a fresh allocation holding the result, and the strong count of
the old allocation is decremented. Returns the updated world and the
(possibly fresh) allocation of the reference. -/
def make_mut_reduce {T A : Type} (cl : T → T) (red : T → A → T)
    (w : World T) (r : Nat) (a : A) : World T × Nat :=
  match w.heap[r]? with
  | some (v, n) =>
    if n = 1 then
      (⟨w.heap.set r (red v a, 1)⟩, r)
    else
      (⟨(w.heap.set r (v, n - 1)) ++ [(red (cl v) a, 1)]⟩, w.heap.length)
  | none => (w, r)

/-- C7: a mutation of the copy-on-write container via `reduce` clones the
contained state if and only if more than one live strong reference exists at
mutation time. Sole owner (count one): the value is mutated in place — the
reference and the heap size are unchanged, so nothing is reallocated.
Shared (count at least two): the reference moves to a fresh allocation
holding the mutated clone, while the old allocation keeps the pre-mutation
value with its count decremented — so the state observed through a clone of
the container remains the pre-mutation value. -/
theorem cow_reduce_clone_iff_shared :
    (∀ (T A : Type) (cl : T → T) (red : T → A → T) (w : World T) (r : Nat)
        (v : T) (a : A),
      w.get r = some (v, 1) →
      make_mut_reduce cl red w r a = (⟨w.heap.set r (red v a, 1)⟩, r)
        ∧ (make_mut_reduce cl red w r a).1.heap.length = w.heap.length
        ∧ (make_mut_reduce cl red w r a).2 = r)
    ∧ (∀ (T A : Type) (cl : T → T) (red : T → A → T) (w : World T) (r : Nat)
        (v : T) (n : Nat) (a : A),
      w.get r = some (v, n) → 2 ≤ n →
      (make_mut_reduce cl red w r a).2 = w.heap.length
        ∧ (make_mut_reduce cl red w r a).1.get r = some (v, n - 1)
        ∧ (make_mut_reduce cl red w r a).1.get w.heap.length
            = some (red (cl v) a, 1)
        ∧ (make_mut_reduce cl red w r a).1.heap.length
            = w.heap.length + 1) := by
  constructor
  · intro T A cl red w r v a h
    rw [World.get] at h
    refine ⟨?_, ?_, ?_⟩ <;> simp [make_mut_reduce, h]
  · intro T A cl red w r v n a h hn
    rw [World.get] at h
    have hr : r < w.heap.length := (List.getElem?_eq_some_iff.1 h).1
    have hne : ¬ n = 1 := by omega
    refine ⟨?_, ?_, ?_, ?_⟩
    · simp [make_mut_reduce, h, hne]
    · rw [World.get]
      simp only [make_mut_reduce, h, hne, if_false]
      rw [List.getElem?_append_left (by simpa using hr)]
      exact List.getElem?_set_self hr
    · rw [World.get]
      simp only [make_mut_reduce, h, hne, if_false]
      rw [show w.heap.length = (w.heap.set r (v, n - 1)).length by simp]
      exact List.getElem?_concat_length _ _
    · simp [make_mut_reduce, h, hne]

/-- Witness for C7: a heap with one allocation holding `10` with two strong
references (an original and a clone): mutating the original by adding `5`
redirects it to a fresh allocation holding `15`, while the clone still
observes `10`; on a heap where the allocation has a single reference, the
same mutation happens in place. -/
theorem cow_reduce_clone_iff_shared_witness :
    (make_mut_reduce id (fun s a => s + a) (⟨[((10 : Int), 1)]⟩ : World Int)
          0 (5 : Int)
        = (⟨[((10 : Int), 1)].set 0 (15, 1)⟩, 0)
      ∧ (make_mut_reduce id (fun s a => s + a)
          (⟨[((10 : Int), 1)]⟩ : World Int) 0 (5 : Int)).1.heap.length = 1
      ∧ (make_mut_reduce id (fun s a => s + a)
          (⟨[((10 : Int), 1)]⟩ : World Int) 0 (5 : Int)).2 = 0)
    ∧ ((make_mut_reduce id (fun s a => s + a)
          (⟨[((10 : Int), 2)]⟩ : World Int) 0 (5 : Int)).2 = 1
      ∧ (make_mut_reduce id (fun s a => s + a)
          (⟨[((10 : Int), 2)]⟩ : World Int) 0 (5 : Int)).1.get 0
        = some (10, 1)
      ∧ (make_mut_reduce id (fun s a => s + a)
          (⟨[((10 : Int), 2)]⟩ : World Int) 0 (5 : Int)).1.get 1
        = some (15, 1)
      ∧ (make_mut_reduce id (fun s a => s + a)
          (⟨[((10 : Int), 2)]⟩ : World Int) 0 (5 : Int)).1.heap.length
        = 2) := by
  constructor
  · exact cow_reduce_clone_iff_shared.1 Int Int id (fun s a => s + a)
      ⟨[(10, 1)]⟩ 0 10 5 rfl
  · have h := cow_reduce_clone_iff_shared.2 Int Int id (fun s a => s + a)
      ⟨[(10, 2)]⟩ 0 10 2 5 rfl (by decide)
    exact ⟨h.1, h.2.1, h.2.2.1, h.2.2.2⟩

/-- C9: wrapping a reducer in the copy-on-write container is
value-transparent: for every state and action, reducing the container
leaves its (possibly fresh) allocation holding exactly `reduce` of the old
contained value — independent of how many other references to the
allocation exist — provided the `Clone` implementation of the state is
value-preserving (sharing affects only allocation, never the resulting
state value). -/
theorem cow_reduce_value_transparent :
    ∀ (T A : Type) (cl : T → T) (red : T → A → T) (w : World T) (r : Nat)
      (v : T) (n : Nat) (a : A),
      (∀ x, cl x = x) →
      w.get r = some (v, n) →
      (make_mut_reduce cl red w r a).1.get (make_mut_reduce cl red w r a).2
        = some (red v a, 1) := by
  intro T A cl red w r v n a hcl h
  rw [World.get] at h
  have hr : r < w.heap.length := (List.getElem?_eq_some_iff.1 h).1
  by_cases hn : n = 1
  · subst hn
    rw [World.get]
    simp only [make_mut_reduce, h, if_pos rfl]
    exact List.getElem?_set_self hr
  · rw [World.get]
    simp only [make_mut_reduce, h, hn, if_false]
    rw [show w.heap.length = (w.heap.set r (v, n - 1)).length by simp]
    rw [List.getElem?_concat_length, hcl]

/-- Witness for C9: reducing a container holding `10` with three live
references by adding `5` yields a container whose contained value is `15`. -/
theorem cow_reduce_value_transparent_witness :
    (make_mut_reduce id (fun s a => s + a) (⟨[((10 : Int), 3)]⟩ : World Int)
        0 (5 : Int)).1.get
      (make_mut_reduce id (fun s a => s + a)
        (⟨[((10 : Int), 3)]⟩ : World Int) 0 (5 : Int)).2
    = some (15, 1) :=
  cow_reduce_value_transparent Int Int id (fun s a => s + a)
    ⟨[(10, 3)]⟩ 0 10 3 5 (fun _ => rfl) rfl

end Reducer
